import Mathlib

/-!
Verification of the form-to-PDF layout and pagination engine of the
form-filler repository (src/pdf/acknowledgment_pdf.py, src/pdf/transfer_pdf.py,
src/gui/acknowledgment_form.py, src/gui/transfer_form.py).

Python strings are embedded as `List Char` (`PyStr`).  Page coordinates,
which the source manipulates as Python floats built from exact decimal
literals, are embedded as exact rationals (`ℚ`).  The rendering backend's
string-width oracle (`canvas.stringWidth`) is an external collaborator and is
modelled as a parameter `meas : PyStr → ℚ` (or, where the font matters,
`sw : String → ℕ → PyStr → ℚ` taking font name and size).
-/

namespace FormFiller

/-- Python `str` as a list of characters. -/
abbrev PyStr := List Char

/-- One typographic point; `reportlab.lib.units.inch = 72`. -/
def inch : ℚ := 72

/-- `reportlab` millimetre: `72 / 25.4`. -/
def mm : ℚ := 360 / 127

/-- A4 page width (`210*mm`), as in `reportlab.lib.pagesizes.A4`. -/
def page_width : ℚ := 210 * mm

/-- A4 page height (`297*mm`). -/
def page_height : ℚ := 297 * mm

/-! ### Python string helpers -/
/-- Whitespace recognised by the embedding of Python `str.strip` / `str.split`. -/
def isPySpace (c : Char) : Bool := c = ' ' || c = '\t' || c = '\n' || c = '\r'

/-- Python `s.strip()`: remove leading and trailing whitespace. -/
def pyStrip (s : PyStr) : PyStr :=
  ((s.dropWhile isPySpace).reverse.dropWhile isPySpace).reverse

/-- Python `s or d` for strings: `d` when `s` is empty (falsy), else `s`. -/
def orDefault (s d : PyStr) : PyStr := if s = [] then d else s

/-- Helper for Python `str.split()` (no separator): accumulate the current
word (reversed) and split on whitespace runs, dropping empty pieces. -/
def pySplitAux : PyStr → PyStr → List PyStr
  | cur, [] => if cur = [] then [] else [cur.reverse]
  | cur, c :: cs =>
    if isPySpace c then
      if cur = [] then pySplitAux [] cs else cur.reverse :: pySplitAux [] cs
    else pySplitAux (c :: cur) cs

/-- Python `s.split()`: whitespace-separated words, no empty words. -/
def pySplit (s : PyStr) : List PyStr := pySplitAux [] s

/-- Python `" ".join(ws)`. -/
def joinSp (ws : List PyStr) : PyStr := List.intercalate [' '] ws

/-! ### Word-wrap (acknowledgment_pdf.py `_draw_declaration` lines 441-454 and
`_draw_device_selection` lines 480-494)

The source loop:
```
for word in words:
    current_line.append(word)
    test_line = " ".join(current_line)
    if c.stringWidth(test_line, font, size) > max_width:
        current_line.pop()
        lines.append(" ".join(current_line))
        current_line = [word]
if current_line:
    lines.append(" ".join(current_line))
```
`wrapRec meas mw cur ws` returns the produced lines as word lists; the drawn
lines are their space-joins (`wrapLines`). -/
def wrapRec {W : Type} [LinearOrder W] (meas : PyStr → W) (mw : W) : List PyStr → List PyStr → List (List PyStr)
  | cur, [] => if cur = [] then [] else [cur]
  | cur, w :: ws =>
    let cur2 := cur ++ [w]
    if meas (joinSp cur2) > mw then
      cur :: wrapRec meas mw [w] ws
    else
      wrapRec meas mw cur2 ws

/-- The word-wrap result as a list of lines, each a list of words. -/
def wrapWordLists {W : Type} [LinearOrder W] (meas : PyStr → W) (mw : W) (ws : List PyStr) : List (List PyStr) :=
  wrapRec meas mw [] ws

/-- The word-wrap result as the actually drawn line strings. -/
def wrapLines {W : Type} [LinearOrder W] (meas : PyStr → W) (mw : W) (ws : List PyStr) : List PyStr :=
  (wrapWordLists meas mw ws).map joinSp

/-- Word-wrap applied to a raw text, as the source does (`text.split()`). -/
def wrapText {W : Type} [LinearOrder W] (meas : PyStr → W) (mw : W) (s : PyStr) : List PyStr :=
  wrapLines meas mw (pySplit s)

/-- Invariant for produced lines: fits, or a single word, or empty. -/
def LineOk {W : Type} [LinearOrder W] (meas : PyStr → W) (mw : W) (l : List PyStr) : Prop :=
  meas (joinSp l) ≤ mw ∨ (∃ w, l = [w]) ∨ l = []

/-! ### Truncate-with-ellipsis (transfer_pdf.py `_truncate_text`, lines 238-247)

```
if not text: return ""
if c.stringWidth(text, font_name, font_size) <= max_width: return text
while len(text) > 0 and c.stringWidth(text + "...", font_name, font_size) > max_width:
    text = text[:-1]
return text + "..." if text else ""
```
The while-loop is embedded structurally with fuel equal to the initial length
(each iteration removes exactly one character). -/
def ellipsisChars : PyStr := ['.', '.', '.']

/-- The `while` loop of `_truncate_text`; `fuel ≥ t.length` makes it total. -/
def truncLoopAux {W : Type} [LinearOrder W] (meas : PyStr → W) (mw : W) : ℕ → PyStr → PyStr
  | 0, t => t
  | fuel + 1, t =>
    if t = [] then t
    else if meas (t ++ ellipsisChars) > mw then truncLoopAux meas mw fuel t.dropLast
    else t

/-- `_truncate_text` of transfer_pdf.py. -/
def truncate_text {W : Type} [LinearOrder W] (meas : PyStr → W) (mw : W) (text : PyStr) : PyStr :=
  if text = [] then []
  else if meas text ≤ mw then text
  else
    let t := truncLoopAux meas mw text.length text
    if t = [] then [] else t ++ ellipsisChars

/-! ### Table-cell hard truncation (acknowledgment_pdf.py lines 316-319,
transfer_pdf.py lines 336-339 — identical in both tables)

```
max_chars = int(width / 5.5)
if len(text) > max_chars and col != 0:
    text = text[:max_chars]
```
-/
/-- Python `int()` on a rational value: truncation toward zero. -/
def pyInt (q : ℚ) : ℤ := if q < 0 then -((-q).floor) else q.floor

/-- Python slice `l[:m]`, including the negative-index convention. -/
def pySliceTo (l : PyStr) (m : ℤ) : PyStr :=
  if 0 ≤ m then l.take m.toNat else l.take (l.length - (-m).toNat)

/-- The per-cell text adjustment shared by both tables: for a non-index column
(`col ≠ 0`), text longer than `int(width / 5.5)` characters is hard-truncated
to that many characters; otherwise it is left unchanged. -/
def cell_text (text : PyStr) (width : ℚ) (col : ℕ) : PyStr :=
  let max_chars := pyInt (width / (5.5 : ℚ))
  if (text.length : ℤ) > max_chars ∧ col ≠ 0 then pySliceTo text max_chars else text

/-- The character budget of a column, as a natural number (column widths are
positive in both tables). -/
def cellMaxChars (width : ℚ) : ℕ := (pyInt (width / (5.5 : ℚ))).toNat

/-! ### Data model (form_data dictionaries built in the GUI layer) -/
/-- One row of the Acknowledgment items table. -/
structure Item where
  store_code : PyStr
  description : PyStr
  qty : PyStr
  purchase_date : PyStr
deriving DecidableEq

/-- The `form_data` dictionary of the Acknowledgment form. -/
structure AckForm where
  items : List Item
  custodian_name : PyStr
  emp_id : PyStr
  department : PyStr
  building : PyStr
  building_other : PyStr
  floor : PyStr
  floor_other : PyStr
  section_field : PyStr
  device_type : PyStr
deriving DecidableEq

/-- One row of the Transfer assets table. -/
structure Asset where
  store_code : PyStr
  asset_name : PyStr
  description : PyStr
  old_asset_no : PyStr
deriving DecidableEq

/-- The `form_data` dictionary of the Transfer form. -/
structure TransferForm where
  from_name : PyStr
  from_department : PyStr
  from_emp_id : PyStr
  to_name : PyStr
  to_department : PyStr
  to_emp_id : PyStr
  assets : List Asset
deriving DecidableEq

/-! ### Filename generation (`_generate_filename` in both generators)

The source sanitizes each interpolated field with a sequential loop
```
invalid_chars = '<>:"/\\|?*'
for char in invalid_chars:
    field = field.replace(char, '_')
```
-/
/-- The forbidden filename characters `<>:"/\|?*`. -/
def invalidChars : PyStr := ['<', '>', ':', '"', '/', '\\', '|', '?', '*']

/-- Python `s.replace(a, b)` for single characters. -/
def pyReplace (s : PyStr) (a b : Char) : PyStr := s.map fun c => if c = a then b else c

/-- The source's sequential sanitation loop over `invalid_chars`. -/
def sanitizeFold (s : PyStr) : PyStr :=
  invalidChars.foldl (fun acc ch => pyReplace acc ch '_') s

/-- The spec's description of sanitation: every character of the forbidden set
is replaced by `'_'`, pointwise. -/
def specSanitize (s : PyStr) : PyStr :=
  s.map fun c => if c ∈ invalidChars then '_' else c

/-- `AcknowledgmentPDFGenerator._generate_filename` (lines 42-64). -/
def ackGenerateFilename (d : AckForm) : PyStr :=
  let emp_id := orDefault (pyStrip d.emp_id) "Unknown".data
  let name := orDefault (pyStrip d.custodian_name) "Unknown".data
  let asset_name :=
    match d.items with
    | item :: _ =>
      if item.description ≠ [] then
        let a := pyStrip item.description
        if a.length > 30 then a.take 30 else a
      else "Asset".data
    | [] => "Asset".data
  sanitizeFold emp_id ++ " - ".data ++ sanitizeFold name
    ++ " - acknowledgement form ".data ++ sanitizeFold asset_name ++ ".pdf".data

/-- `TransferPDFGenerator._generate_filename` (lines 40-55). -/
def transferGenerateFilename (t : TransferForm) : PyStr :=
  let from_emp_id := orDefault (pyStrip t.from_emp_id) "Unknown".data
  let from_name := orDefault (pyStrip t.from_name) "Unknown".data
  let to_emp_id := orDefault (pyStrip t.to_emp_id) "Unknown".data
  let to_name := orDefault (pyStrip t.to_name) "Unknown".data
  "Asset Transfer - From ".data ++ sanitizeFold from_emp_id ++ "-".data
    ++ sanitizeFold from_name ++ " to ".data ++ sanitizeFold to_emp_id ++ "-".data
    ++ sanitizeFold to_name ++ ".pdf".data

/-- Modelled from the spec (claim C8 / spec §4.4): the Acknowledgment filename
rule, written with the spec's pointwise sanitation and unconditional 30-char
truncation. -/
def ackSpecFilename (d : AckForm) : PyStr :=
  let asset_name :=
    match d.items with
    | item :: _ => (orDefault item.description "Asset".data).take 30
    | [] => "Asset".data
  specSanitize (orDefault d.emp_id "Unknown".data) ++ " - ".data
    ++ specSanitize (orDefault d.custodian_name "Unknown".data)
    ++ " - acknowledgement form ".data ++ specSanitize asset_name ++ ".pdf".data

/-- Modelled from the spec (claim C8 / spec §4.4): the Transfer filename rule. -/
def transferSpecFilename (t : TransferForm) : PyStr :=
  "Asset Transfer - From ".data ++ specSanitize (orDefault t.from_emp_id "Unknown".data)
    ++ "-".data ++ specSanitize (orDefault t.from_name "Unknown".data) ++ " to ".data
    ++ specSanitize (orDefault t.to_emp_id "Unknown".data) ++ "-".data
    ++ specSanitize (orDefault t.to_name "Unknown".data) ++ ".pdf".data

/-- A sample trimmed Acknowledgment submission (with a forbidden `<`, `>` and
`/` in its fields, so the sanitation is exercised). -/
def sampleAck : AckForm :=
  { items := [{ store_code := "SC1".data, description := "Dell<Laptop>15".data,
                qty := "1".data, purchase_date := "2024".data }]
    custodian_name := "John/Doe".data
    emp_id := "E123".data
    department := "IT".data
    building := "SZH".data
    building_other := []
    floor := "Ground".data
    floor_other := []
    section_field := "Male".data
    device_type := "Lab".data }

/-- A sample trimmed Transfer submission. -/
def sampleTransfer : TransferForm :=
  { from_name := "A|B".data, from_department := "IT".data, from_emp_id := "E1".data
    to_name := "C?D".data, to_department := "HR".data, to_emp_id := []
    assets := [{ store_code := "S1".data, asset_name := "PC".data,
                 description := "Dell".data, old_asset_no := "7".data }] }

/-! ### Unique output path (`_get_unique_filepath`, identical in both
generators: acknowledgment_pdf.py lines 66-82, transfer_pdf.py lines 57-73)

```
filepath = os.path.join(output_dir, filename)
if not os.path.exists(filepath): return filepath
base_name = filename[:-4]  # Remove .pdf
counter = 2
while True:
    new_filename = f"{base_name} (#{counter}).pdf"
    new_filepath = os.path.join(output_dir, new_filename)
    if not os.path.exists(new_filepath): return new_filepath
    counter += 1
```
The file system is modelled as the list `fs` of existing paths; the unbounded
`while True` is run with fuel `fs.length + 1`, which is proved sufficient
(`c_uniqueLoop_total` machinery below). -/
/-- `os.path.join(dir, name)` for a simple relative name. -/
def osJoin (dir name : PyStr) : PyStr := dir ++ '/' :: name

/-- Decimal digits of `n`, most significant first (`fuel ≥ n` suffices). -/
def natStrAux : ℕ → ℕ → PyStr
  | 0, _ => []
  | fuel + 1, n =>
    if n = 0 then [] else natStrAux fuel (n / 10) ++ [Nat.digitChar (n % 10)]

/-- Python `str(n)` for a natural number. -/
def natStr (n : ℕ) : PyStr := if n = 0 then ['0'] else natStrAux (n + 1) n

/-- Numeric value of a decimal digit character. -/
def digitVal (c : Char) : ℕ := c.toNat - '0'.toNat

/-- Read a digit string back as a number (left inverse of `natStr`). -/
def toNatOf (l : PyStr) : ℕ := l.foldl (fun a c => 10 * a + digitVal c) 0

/-- The candidate collision filename for counter value `k`. -/
def candName (base : PyStr) (k : ℕ) : PyStr :=
  base ++ " (#".data ++ natStr k ++ ").pdf".data

/-- The candidate collision path for counter value `k`. -/
def cand (dir base : PyStr) (k : ℕ) : PyStr := osJoin dir (candName base k)

/-- The `while True` loop of `_get_unique_filepath`, with explicit fuel. -/
def uniqueLoopAux (fs : List PyStr) (dir base : PyStr) : ℕ → ℕ → Option PyStr
  | 0, _ => none
  | fuel + 1, k =>
    let new_filepath := osJoin dir (base ++ " (#".data ++ natStr k ++ ").pdf".data)
    if new_filepath ∈ fs then uniqueLoopAux fs dir base fuel (k + 1)
    else some new_filepath

/-- `_get_unique_filepath` of both generators. -/
def get_unique_filepath (fs : List PyStr) (dir filename : PyStr) : Option PyStr :=
  let filepath := osJoin dir filename
  if filepath ∈ fs then
    uniqueLoopAux fs dir (filename.take (filename.length - 4)) (fs.length + 1) 2
  else some filepath

/-! ### Layout engine and pagination traces

The cursor flow of `_draw_form` is embedded exactly (every `y -= ...` of the
source); drawing calls that do not move the cursor are not modelled.  Every
coordinate the source manipulates is an integer multiple of `0.01 * inch`
(`= 0.72` points) or of the A4 page dimensions `210*mm × 297*mm`
(`mm = 72/25.4`), so all coordinates are embedded exactly as integers in
units of `1/3175` of a point: `0.01 * inch = 2286` units and `mm = 9000`
units, with every comparison of the source preserved.  The embedding records
an event trace: every executed page-break check, page break, header-row draw
and data-row draw (with the cursor the row is drawn at). -/
/-- `0.01 * inch` in layout units (1/3175 of a point). -/
def inch100 : ℤ := 2286

/-- `c/100` inches in layout units: `inches 32` embeds `0.32 * inch`. -/
def inches (c : ℤ) : ℤ := c * inch100

/-- One millimetre (`72/25.4` points) in layout units. -/
def mmU : ℤ := 9000

/-- A4 page width (`210*mm`) in layout units. -/
def pageW : ℤ := 210 * mmU

/-- A4 page height (`297*mm`) in layout units. -/
def pageH : ℤ := 297 * mmU

/-- Observable layout events emitted during one render.  Cursor values and
check budgets are in layout units. -/
inductive Ev : Type
  | pageBreak : Ev
  | headerRow : Ev
  | dataRow : ℕ → ℤ → Ev
  | rowCheck : Ev
  | blockCheck : ℤ → Ev
  | sigCheck : ℤ → Ev
deriving DecidableEq

/-- Index of a data-row event. -/
def dataRowIdx : Ev → Option ℕ
  | Ev.dataRow i _ => some i
  | _ => none

/-- Is this event a drawn data row? -/
def isDataRow (e : Ev) : Bool := (dataRowIdx e).isSome

/-- Is this event a block-level page-break check (the `_check_page_break`
pattern, or the inline `if y < threshold` check before a signature block)? -/
def isBlockLevelCheck : Ev → Bool
  | Ev.blockCheck _ => true
  | Ev.sigCheck _ => true
  | _ => false

namespace Ack

/-- `self.margin = 0.6 * inch` of `AcknowledgmentPDFGenerator`. -/
def margin : ℤ := inches 60

/-- `self.bottom_margin = 0.5 * inch`. -/
def bottom_margin : ℤ := inches 50

/-- Items-table row height (`0.32 * inch`). -/
def row_height : ℤ := inches 32

/-- Items-table header height (`0.4 * inch`). -/
def header_height : ℤ := inches 40

/-- Cursor position of a data row drawn just after an in-table page break:
`showPage; y = height - margin; (redraw header); y -= header_height`. -/
def freshRowY : ℤ := pageH - margin - header_height

/-- The per-row loop of `_draw_items_table` (lines 277-327): cursor evolution
and event trace.  Each iteration performs the page-break check
`y - row_height < bottom_margin + 4 * inch`; on overflow it starts a new page
and redraws the header row, then draws the data row and advances the cursor. -/
def rowsTrace (y : ℤ) : List ℕ → List Ev
  | [] => []
  | i :: rest =>
    if y - row_height < bottom_margin + inches 400 then
      Ev.rowCheck :: Ev.pageBreak :: Ev.headerRow :: Ev.dataRow i freshRowY ::
        rowsTrace (freshRowY - row_height) rest
    else
      Ev.rowCheck :: Ev.dataRow i y :: rowsTrace (y - row_height) rest

/-- Final cursor of the per-row loop of `_draw_items_table`. -/
def rowsFinalY (y : ℤ) : List ℕ → ℤ
  | [] => y
  | _ :: rest =>
    if y - row_height < bottom_margin + inches 400 then
      rowsFinalY (freshRowY - row_height) rest
    else
      rowsFinalY (y - row_height) rest

/-- `num_rows = len(items) if items else 1` (line 274). -/
def numRows (items : List Item) : ℕ := if items.length = 0 then 1 else items.length

/-- Event trace of `_draw_items_table`: initial header row, then the row loop. -/
def drawItemsTableTrace (y : ℤ) (items : List Item) : List Ev :=
  Ev.headerRow :: rowsTrace (y - header_height) (List.range (numRows items))

/-- Final cursor of `_draw_items_table` (`return y - 0.25 * inch`). -/
def drawItemsTableY (y : ℤ) (items : List Item) : ℤ :=
  rowsFinalY (y - header_height) (List.range (numRows items)) - inches 25

/-- Cursor effect of `_draw_header` (`y -= 1.1in; y -= 0.35in; return y - 0.4in`). -/
def drawHeaderY (y : ℤ) : ℤ := y - inches 110 - inches 35 - inches 40

/-- `_draw_date` returns its cursor unchanged. -/
def drawDateY (y : ℤ) : ℤ := y

/-- `_check_page_break` (lines 162-167). -/
def check_page_break (y needed_space : ℤ) : ℤ :=
  if y - needed_space < bottom_margin then pageH - margin else y

/-- Cursor effect of `_draw_custodian_details`
(`y -= 0.28in; y -= 0.35in; return y - 0.4in`). -/
def drawCustodianY (y : ℤ) : ℤ := y - inches 28 - inches 35 - inches 40

/-- Cursor effect of `_draw_location_section`
(`y -= 0.32in; return y - 6 * 0.24in - 0.15in`). -/
def drawLocationY (y : ℤ) : ℤ := y - inches 32 - 6 * inches 24 - inches 15

/-- The fixed declaration paragraph of `_draw_declaration`. -/
def declaration_text : PyStr :=
  ("I confirm that this device(s) is a property of Ajman University and to be "
    ++ "returned back to AU Store after usage. This device(s) can\x27t be shifted to "
    ++ "any other user/location without a written approval from the Store.").data

/-- Cursor effect of `_draw_declaration`: one `0.16 * inch` step per wrapped
line at width `width - 2 * margin`, then `return y - 0.12 * inch`.  `sw` is
the backend's string-width oracle (font name, size, text), in layout units. -/
def drawDeclarationY (sw : String → ℕ → PyStr → ℤ) (y : ℤ) : ℤ :=
  let lines := wrapLines (sw "Helvetica-BoldOblique" 9) (pageW - 2 * margin)
    (pySplit declaration_text)
  (lines.foldl (fun yy _ => yy - inches 16) y) - inches 12

/-- The fixed office-device paragraph of `_draw_device_selection`. -/
def office_text : PyStr :=
  ("I understand that I will be responsible for any misuse or damages that may occur. "
    ++ "I confirm that this device(s) will be used for work purpose only.").data

/-- Cursor effect of `_draw_device_selection` (`y -= 0.28in; y -= 0.18in`;
one `0.13 * inch` step per wrapped office line at width
`width - 2 * margin - 0.4in`; `y -= 0.12in; y -= 0.18in; return y - 0.3in`). -/
def drawDeviceY (sw : String → ℕ → PyStr → ℤ) (y : ℤ) : ℤ :=
  let y1 := y - inches 28 - inches 18
  let lines := wrapLines (sw "Helvetica" 8) (pageW - 2 * margin - inches 40)
    (pySplit office_text)
  (lines.foldl (fun yy _ => yy - inches 13) y1) - inches 12 - inches 18 - inches 30

/-- Event trace of the whole `_draw_form` (lines 169-199): header, date,
items table, the single coarse `_check_page_break(c, y, 4.5*inch)` call, the
four fixed sections, then `_draw_signature`'s own `if y < 1.3 * inch` check. -/
def drawFormTrace (sw : String → ℕ → PyStr → ℤ) (items : List Item) : List Ev :=
  let y0 := pageH - margin
  let y1 := drawDateY (drawHeaderY y0)
  let trT := drawItemsTableTrace y1 items
  let y2 := drawItemsTableY y1 items
  let y3 := check_page_break y2 (inches 450)
  let trB := Ev.blockCheck (inches 450) ::
    (if y2 - inches 450 < bottom_margin then [Ev.pageBreak] else [])
  let y4 := drawDeviceY sw (drawDeclarationY sw (drawLocationY (drawCustodianY y3)))
  let trS := Ev.sigCheck (inches 130) :: (if y4 < inches 130 then [Ev.pageBreak] else [])
  trT ++ trB ++ trS

end Ack

namespace Transfer

/-- `self.margin = 0.75 * inch` of `TransferPDFGenerator`. -/
def margin : ℤ := inches 75

/-- Assets-table row height (`0.3 * inch`). -/
def row_height : ℤ := inches 30

/-- Assets-table header height (`0.35 * inch`). -/
def header_height : ℤ := inches 35

/-- The per-row loop of `_draw_assets_table` (lines 318-348): no page-break
check of any kind, one data row per iteration. -/
def rowsTrace (y : ℤ) : List ℕ → List Ev
  | [] => []
  | i :: rest => Ev.dataRow i y :: rowsTrace (y - row_height) rest

/-- Final cursor of the per-row loop of `_draw_assets_table`. -/
def rowsFinalY (y : ℤ) : List ℕ → ℤ
  | [] => y
  | _ :: rest => rowsFinalY (y - row_height) rest

/-- `num_rows = len(assets) if assets else 1` (line 315). -/
def numRows (assets : List Asset) : ℕ := if assets.length = 0 then 1 else assets.length

/-- Event trace of `_draw_assets_table`. -/
def drawAssetsTableTrace (y : ℤ) (assets : List Asset) : List Ev :=
  Ev.headerRow :: rowsTrace (y - header_height) (List.range (numRows assets))

/-- Final cursor of `_draw_assets_table` (`return y - 0.3 * inch`). -/
def drawAssetsTableY (y : ℤ) (assets : List Asset) : ℤ :=
  rowsFinalY (y - header_height) (List.range (numRows assets)) - inches 30

/-- Cursor effect of `_draw_header`
(`y -= 1.1in; y -= 0.5in; y -= 0.3in; return y - 0.5in`). -/
def drawHeaderY (y : ℤ) : ℤ := y - inches 110 - inches 50 - inches 30 - inches 50

/-- Cursor effect of `_draw_transferred_from` and `_draw_transferred_to`
(`y -= 0.32in; y -= 0.35in; return y - 0.4in`). -/
def drawPartyY (y : ℤ) : ℤ := y - inches 32 - inches 35 - inches 40

/-- Cursor effect of `_draw_declaration` (four fixed lines of `0.16 * inch`
after `y -= 0.25in`, then `return y - 0.2in`). -/
def drawDeclarationY (y : ℤ) : ℤ :=
  y - inches 25 - 4 * inches 16 - inches 20

/-- Event trace of the whole `_draw_form` (lines 153-176): header, date,
transferred-from, assets table, transferred-to, declaration, then
`_draw_signature`'s `if y < 1.5 * inch` check — the only page-break check the
Transfer form performs. -/
def drawFormTrace (assets : List Asset) : List Ev :=
  let y0 := pageH - margin
  let y1 := drawPartyY (drawHeaderY y0)
  let trT := drawAssetsTableTrace y1 assets
  let y2 := drawDeclarationY (drawPartyY (drawAssetsTableY y1 assets))
  trT ++ (Ev.sigCheck (inches 150) :: (if y2 < inches 150 then [Ev.pageBreak] else []))

end Transfer

/-- Scanner: every `pageBreak` event is immediately followed by a
`headerRow` event. -/
def pbThenHeader : List Ev → Bool
  | [] => true
  | [Ev.pageBreak] => false
  | Ev.pageBreak :: Ev.headerRow :: rest => pbThenHeader (Ev.headerRow :: rest)
  | Ev.pageBreak :: _ :: _ => false
  | _ :: rest => pbThenHeader rest

/-- Scanner: every `dataRow` event is preceded by a `rowCheck` event issued
since the previous `dataRow` (the `armed` flag records a pending check). -/
def checkBeforeRow : Bool → List Ev → Bool
  | _, [] => true
  | _, Ev.rowCheck :: rest => checkBeforeRow true rest
  | armed, Ev.dataRow _ _ :: rest => armed && checkBeforeRow false rest
  | armed, _ :: rest => checkBeforeRow armed rest

/-- A blank items-table row (all fields empty). -/
def blankItem : Item := { store_code := [], description := [], qty := [], purchase_date := [] }

/-! ### `generate()` and the GUI callers

`generate(form_data, filename=None)` (acknowledgment_pdf.py lines 84-103,
transfer_pdf.py lines 75-94) resolves the filename (generating one when the
argument is `None`), resolves a unique output path against the existing files,
draws the form and writes the file.  It performs no validation of the row
list.  The GUI `_generate_pdf` handlers (acknowledgment_form.py lines
383-416, transfer_form.py lines 348-378) are the callers that reject
empty-row submissions with a warning, before `generate` is ever invoked. -/
/-- Path-resolution part of `generate`: explicit `filename` argument or the
generated one, then `_get_unique_filepath`. -/
def Ack.generatePathWith (fs : List PyStr) (dir : PyStr) (d : AckForm)
    (filename : Option PyStr) : Option PyStr :=
  get_unique_filepath fs dir (filename.getD (ackGenerateFilename d))

/-- `AcknowledgmentPDFGenerator.generate`: the resolved output path together
with the layout-event trace of the `_draw_form` call that renders the file. -/
def Ack.generate (fs : List PyStr) (dir : PyStr) (sw : String → ℕ → PyStr → ℤ)
    (d : AckForm) (filename : Option PyStr) : Option (PyStr × List Ev) :=
  (Ack.generatePathWith fs dir d filename).map fun p => (p, Ack.drawFormTrace sw d.items)

/-- Path-resolution part of `TransferPDFGenerator.generate`. -/
def Transfer.generatePathWith (fs : List PyStr) (dir : PyStr) (t : TransferForm)
    (filename : Option PyStr) : Option PyStr :=
  get_unique_filepath fs dir (filename.getD (transferGenerateFilename t))

/-- `TransferPDFGenerator.generate`: resolved output path plus drawing trace. -/
def Transfer.generate (fs : List PyStr) (dir : PyStr) (t : TransferForm)
    (filename : Option PyStr) : Option (PyStr × List Ev) :=
  (Transfer.generatePathWith fs dir t filename).map fun p =>
    (p, Transfer.drawFormTrace t.assets)

/-- `_get_items` of the Acknowledgment GUI form: strip every field of every
widget row and keep the row iff some field is non-empty. -/
def guiGetItems (rows : List Item) : List Item :=
  rows.filterMap fun w =>
    let sc := pyStrip w.store_code
    let ds := pyStrip w.description
    let q := pyStrip w.qty
    let pd := pyStrip w.purchase_date
    if sc ≠ [] ∨ ds ≠ [] ∨ q ≠ [] ∨ pd ≠ [] then
      some { store_code := sc, description := ds, qty := q, purchase_date := pd }
    else none

/-- `_get_assets` of the Transfer GUI form. -/
def guiGetAssets (rows : List Asset) : List Asset :=
  rows.filterMap fun w =>
    let sc := pyStrip w.store_code
    let an := pyStrip w.asset_name
    let ds := pyStrip w.description
    let oa := pyStrip w.old_asset_no
    if sc ≠ [] ∨ an ≠ [] ∨ ds ≠ [] ∨ oa ≠ [] then
      some { store_code := sc, asset_name := an, description := ds, old_asset_no := oa }
    else none

/-- `_generate_pdf` of the Acknowledgment GUI form: collect items, warn and
return (`none`) when no item row remains, else call `generate` with the
collected items in the form data. -/
def guiAckGeneratePdf (fs : List PyStr) (dir : PyStr) (sw : String → ℕ → PyStr → ℤ)
    (rows : List Item) (base : AckForm) : Option (PyStr × List Ev) :=
  let items := guiGetItems rows
  if items = [] then none
  else Ack.generate fs dir sw { base with items := items } none

/-- `_generate_pdf` of the Transfer GUI form. -/
def guiTransferGeneratePdf (fs : List PyStr) (dir : PyStr)
    (rows : List Asset) (base : TransferForm) : Option (PyStr × List Ev) :=
  let assets := guiGetAssets rows
  if assets = [] then none
  else Transfer.generate fs dir { base with assets := assets } none

/-- An Acknowledgment submission with no data rows and all fields empty. -/
def emptyAck : AckForm :=
  { items := [], custodian_name := [], emp_id := [], department := [], building := [],
    building_other := [], floor := [], floor_other := [], section_field := [],
    device_type := [] }

/-- A Transfer submission with no data rows and all fields empty. -/
def emptyTransfer : TransferForm :=
  { from_name := [], from_department := [], from_emp_id := [], to_name := [],
    to_department := [], to_emp_id := [], assets := [] }

/-- The stem of the filename generated for the all-empty Acknowledgment form. -/
def emptyAckStem : PyStr := "Unknown - Unknown - acknowledgement form Asset".data

lemma wrapRec_flatten {W : Type} [LinearOrder W] (meas : PyStr → W) (mw : W) :
    ∀ (ws : List PyStr) (cur : List PyStr), (wrapRec meas mw cur ws).flatten = cur ++ ws := by
  intro ws
  induction ws with
  | nil =>
    intro cur
    by_cases h : cur = [] <;> simp [wrapRec, h]
  | cons w ws ih =>
    intro cur
    by_cases h : meas (joinSp (cur ++ [w])) > mw
    · simp [wrapRec, h, ih]
    · simp [wrapRec, h, ih]

lemma wrapRec_lineOk {W : Type} [LinearOrder W] (meas : PyStr → W) (mw : W) :
    ∀ (ws : List PyStr) (cur : List PyStr), LineOk meas mw cur →
      ∀ l ∈ wrapRec meas mw cur ws, LineOk meas mw l := by
  intro ws
  induction ws with
  | nil =>
    intro cur hcur l hl
    by_cases h : cur = [] <;> simp [wrapRec, h] at hl
    · exact hl ▸ hcur
  | cons w ws ih =>
    intro cur hcur l hl
    by_cases h : meas (joinSp (cur ++ [w])) > mw
    · simp only [wrapRec, if_pos h] at hl
      rcases List.mem_cons.mp hl with h1 | h2
      · exact h1 ▸ hcur
      · exact ih [w] (Or.inr (Or.inl ⟨w, rfl⟩)) l h2
    · simp only [wrapRec, if_neg h] at hl
      exact ih (cur ++ [w]) (Or.inl (le_of_not_lt h)) l hl

/-- C1 counterexample: with the width measure instantiated to string length and
`max_width = 3`, wrapping the text `"aaaa bb"` produces the lines
`["", "aaaa", "bb"]`.  Concatenating them with single spaces yields
`" aaaa bb"`, which does not reconstruct the original text, and the line
`"aaaa"` has measured width `4 > 3`.  Both conjuncts of the claim fail. -/
theorem c1_wrap_counterexample :
    wrapText (fun s : PyStr => s.length) 3 "aaaa bb".data
      = [[], "aaaa".data, "bb".data] ∧
    List.intercalate [' '] (wrapText (fun s : PyStr => s.length) 3 "aaaa bb".data)
      ≠ "aaaa bb".data ∧
    ¬ (("aaaa".data : PyStr).length ≤ 3) := by
  refine ⟨by decide, by decide, by decide⟩

/-- C1 (amended): for every width measure, maximum width and word sequence,
the word-wrap (i) preserves the words exactly — flattening the produced lines
back into words yields the original word sequence, with nothing dropped or
duplicated — and (ii) every produced line either has measured width at most
`max_width`, or is a single word standing alone on its line (an oversized word
is never dropped, so its line can exceed `max_width`), or is an empty line
(emitted when the first word of a line already overflows). -/
theorem c1_wrap_words_preserved_and_lines_fit {W : Type} [LinearOrder W] (meas : PyStr → W) (mw : W)
    (ws : List PyStr) :
    (wrapWordLists meas mw ws).flatten = ws ∧
    ∀ l ∈ wrapLines meas mw ws,
      meas l ≤ mw ∨ (∃ w, l = joinSp [w]) ∨ l = joinSp [] := by
  constructor
  · simpa using wrapRec_flatten meas mw ws []
  · intro l hl
    rcases List.mem_map.mp hl with ⟨g, hg, rfl⟩
    have hok := wrapRec_lineOk meas mw ws [] (Or.inr (Or.inr rfl)) g hg
    rcases hok with h | ⟨w, rfl⟩ | rfl
    · exact Or.inl h
    · exact Or.inr (Or.inl ⟨w, rfl⟩)
    · exact Or.inr (Or.inr rfl)

/-- C1 amended-theorem witness: instantiated at the length measure with bound
10 on the single word `"ab"`, whose produced line is a member of the output. -/
theorem c1_wrap_words_preserved_and_lines_fit_witness :
    (wrapWordLists (fun s : PyStr => s.length) 10 ["ab".data]).flatten = ["ab".data] ∧
    ("ab".data ∈ wrapLines (fun s : PyStr => s.length) 10 ["ab".data] ∧
      (("ab".data : PyStr).length ≤ 10 ∨ (∃ w, "ab".data = joinSp [w]) ∨
        ("ab".data : PyStr) = joinSp [])) :=
  ⟨(c1_wrap_words_preserved_and_lines_fit (fun s : PyStr => s.length) 10 ["ab".data]).1,
   by decide,
   (c1_wrap_words_preserved_and_lines_fit (fun s : PyStr => s.length) 10
     ["ab".data]).2 "ab".data (by decide)⟩

lemma dropLast_append_ne {α : Type} (p : List α) :
    ∀ (r : List α), r ≠ [] → (p ++ r).dropLast = p ++ r.dropLast := by
  induction p with
  | nil => intro r _; simp
  | cons a p ih =>
    intro r hr
    have hne : p ++ r ≠ [] := by
      intro h
      exact hr (List.append_eq_nil.mp h).2
    rw [List.cons_append, List.dropLast_cons_of_ne_nil hne, ih r hr, List.cons_append]

lemma truncLoopAux_front {W : Type} [LinearOrder W] (meas : PyStr → W) (mw : W) :
    ∀ (fuel : ℕ) (t : PyStr), ∃ r, truncLoopAux meas mw fuel t ++ r = t := by
  intro fuel
  induction fuel with
  | zero => intro t; exact ⟨[], by simp [truncLoopAux]⟩
  | succ fuel ih =>
    intro t
    by_cases h0 : t = []
    · exact ⟨[], by simp [truncLoopAux, h0]⟩
    · by_cases h1 : meas (t ++ ellipsisChars) > mw
      · rcases ih t.dropLast with ⟨r, hr⟩
        refine ⟨r ++ [t.getLast h0], ?_⟩
        simp only [truncLoopAux, if_neg h0, if_pos h1]
        rw [← List.append_assoc, hr, List.dropLast_append_getLast h0]
      · exact ⟨[], by simp [truncLoopAux, h0, h1]⟩

lemma truncLoopAux_fits {W : Type} [LinearOrder W] (meas : PyStr → W) (mw : W) :
    ∀ (fuel : ℕ) (t : PyStr), t.length ≤ fuel →
      truncLoopAux meas mw fuel t = [] ∨
        meas (truncLoopAux meas mw fuel t ++ ellipsisChars) ≤ mw := by
  intro fuel
  induction fuel with
  | zero =>
    intro t ht
    left
    have : t = [] := List.length_eq_zero.mp (Nat.le_zero.mp ht)
    simp [truncLoopAux, this]
  | succ fuel ih =>
    intro t ht
    by_cases h0 : t = []
    · left; simp [truncLoopAux, h0]
    · by_cases h1 : meas (t ++ ellipsisChars) > mw
      · have hlen : t.dropLast.length ≤ fuel := by
          have := List.length_pos.mpr h0
          simp only [List.length_dropLast]
          omega
        simpa [truncLoopAux, h0, h1] using ih t.dropLast hlen
      · right
        simpa [truncLoopAux, h0, h1] using le_of_not_lt h1

lemma truncLoopAux_empty_no_fit {W : Type} [LinearOrder W] (meas : PyStr → W) (mw : W) :
    ∀ (fuel : ℕ) (t : PyStr), t.length ≤ fuel →
      truncLoopAux meas mw fuel t = [] →
      ∀ p r, p ++ r = t → p ≠ [] → mw < meas (p ++ ellipsisChars) := by
  intro fuel
  induction fuel with
  | zero =>
    intro t ht _ p r hpr hp
    have : t = [] := List.length_eq_zero.mp (Nat.le_zero.mp ht)
    subst this
    exact absurd (List.append_eq_nil.mp hpr).1 hp
  | succ fuel ih =>
    intro t ht hres p r hpr hp
    by_cases h0 : t = []
    · subst h0
      exact absurd (List.append_eq_nil.mp hpr).1 hp
    · by_cases h1 : meas (t ++ ellipsisChars) > mw
      · have hres' : truncLoopAux meas mw fuel t.dropLast = [] := by
          simpa [truncLoopAux, h0, h1] using hres
        have hlen : t.dropLast.length ≤ fuel := by
          have := List.length_pos.mpr h0
          simp only [List.length_dropLast]
          omega
        by_cases hr : r = []
        · subst hr
          simp only [List.append_nil] at hpr
          exact hpr ▸ h1
        · have : p ++ r.dropLast = t.dropLast := by
            rw [← hpr, dropLast_append_ne p r hr]
          exact ih t.dropLast hlen hres' p r.dropLast this hp
      · have : truncLoopAux meas mw (fuel + 1) t = t := by
          simp [truncLoopAux, h0, h1]
        rw [this] at hres
        exact absurd hres h0

/-- C7: the ellipsis-truncation of the Transfer form.  For every width measure
`meas`, bound `mw` and text: (i) a fitting text is returned unchanged, hence
applying the function twice returns the same string; (ii) an oversized text
yields either the empty string — and then no non-empty prefix `p` of the text
fits even as `p ++ "..."` — or `p ++ "..."` for some non-empty prefix `p` of
the text, with measured width at most `mw`. -/
theorem c7_truncate_text_spec {W : Type} [LinearOrder W] (meas : PyStr → W) (mw : W) (text : PyStr) :
    (meas text ≤ mw →
      truncate_text meas mw text = text ∧
      truncate_text meas mw (truncate_text meas mw text) = truncate_text meas mw text) ∧
    (mw < meas text →
      (truncate_text meas mw text = [] ∧
        ∀ p r, p ++ r = text → p ≠ [] → mw < meas (p ++ ellipsisChars)) ∨
      (∃ p r, p ++ r = text ∧ p ≠ [] ∧
        truncate_text meas mw text = p ++ ellipsisChars ∧
        meas (p ++ ellipsisChars) ≤ mw)) := by
  constructor
  · intro hfit
    have h1 : truncate_text meas mw text = text := by
      by_cases h0 : text = []
      · simp [truncate_text, h0]
      · simp [truncate_text, h0, if_pos hfit]
    exact ⟨h1, by rw [h1, h1]⟩
  · intro hbig
    have hnotfit : ¬ meas text ≤ mw := not_le.mpr hbig
    by_cases h0 : text = []
    · left
      constructor
      · simp [truncate_text, h0]
      · intro p r hpr hp
        rw [h0] at hpr
        exact absurd (List.append_eq_nil.mp hpr).1 hp
    · by_cases h2 : truncLoopAux meas mw text.length text = []
      · left
        constructor
        · simp [truncate_text, h0, hnotfit, h2]
        · exact truncLoopAux_empty_no_fit meas mw text.length text le_rfl h2
      · right
        rcases truncLoopAux_front meas mw text.length text with ⟨r, hr⟩
        rcases truncLoopAux_fits meas mw text.length text le_rfl with h | h
        · exact absurd h h2
        · refine ⟨truncLoopAux meas mw text.length text, r, hr, h2, ?_, h⟩
          simp [truncate_text, h0, hnotfit, h2]

/-- C7 witness: both hypotheses of `c7_truncate_text_spec` are satisfiable; a
length measure with bound 10 leaves `"hello"` unchanged, and with bound 4 the
string `"hello world"` is oversized, triggering the truncation branch. -/
theorem c7_truncate_text_spec_witness :
    (("hello".data : PyStr).length ≤ 10 ∧
      (truncate_text (fun s : PyStr => s.length) 10 "hello".data = "hello".data ∧
       truncate_text (fun s : PyStr => s.length) 10
           (truncate_text (fun s : PyStr => s.length) 10 "hello".data)
         = truncate_text (fun s : PyStr => s.length) 10 "hello".data)) ∧
    (4 < ("hello world".data : PyStr).length ∧
      ((truncate_text (fun s : PyStr => s.length) 4 "hello world".data = [] ∧
        ∀ p r, p ++ r = "hello world".data → p ≠ [] →
          4 < ((p ++ ellipsisChars) : PyStr).length) ∨
       (∃ p r, p ++ r = "hello world".data ∧ p ≠ [] ∧
         truncate_text (fun s : PyStr => s.length) 4 "hello world".data = p ++ ellipsisChars ∧
         ((p ++ ellipsisChars) : PyStr).length ≤ 4))) :=
  ⟨⟨by decide,
    (c7_truncate_text_spec (fun s : PyStr => s.length) 10 "hello".data).1 (by decide)⟩,
   ⟨by decide,
    (c7_truncate_text_spec (fun s : PyStr => s.length) 4 "hello world".data).2 (by decide)⟩⟩

/-- C6: the cell text drawn in both tables is a pure function of
`(text, column_width, column)` (it is one, by definition), and: the index
column is never altered; a text within the `⌊width / 5.5⌋` character budget is
unchanged; a longer text in a non-index column is hard-truncated (no ellipsis)
to exactly `⌊width / 5.5⌋` characters and is a prefix of the original. -/
theorem c6_cell_truncation_spec (text : PyStr) (width : ℚ) (col : ℕ)
    (hw : 0 ≤ width) :
    (col = 0 → cell_text text width col = text) ∧
    (text.length ≤ cellMaxChars width → cell_text text width col = text) ∧
    (col ≠ 0 → cellMaxChars width < text.length →
      cell_text text width col = text.take (cellMaxChars width) ∧
      (cell_text text width col).length = cellMaxChars width ∧
      ∃ r, cell_text text width col ++ r = text) := by
  have hq : ¬ (width / (5.5 : ℚ)) < 0 := by
    have : 0 ≤ width / (5.5 : ℚ) := by positivity
    exact not_lt.mpr this
  have hfloor : 0 ≤ (width / (5.5 : ℚ)).floor := by
    have h05 : (0 : ℚ) ≤ width / (5.5 : ℚ) := by positivity
    exact Int.le_floor.mpr (by exact_mod_cast h05)
  have hpy : pyInt (width / (5.5 : ℚ)) = (width / (5.5 : ℚ)).floor := by
    simp [pyInt, hq]
  have hmax : (cellMaxChars width : ℤ) = pyInt (width / (5.5 : ℚ)) := by
    simp [cellMaxChars, hpy, Int.toNat_of_nonneg hfloor]
  refine ⟨?_, ?_, ?_⟩
  · intro h0
    simp [cell_text, h0]
  · intro hlen
    have : ¬ ((text.length : ℤ) > pyInt (width / (5.5 : ℚ))) := by
      rw [← hmax]
      exact_mod_cast not_lt.mpr hlen
    simp [cell_text, this]
  · intro hcol hlen
    have hgt : (text.length : ℤ) > pyInt (width / (5.5 : ℚ)) := by
      rw [← hmax]
      exact_mod_cast hlen
    have hnn : 0 ≤ pyInt (width / (5.5 : ℚ)) := hpy ▸ hfloor
    have hres : cell_text text width col = text.take (cellMaxChars width) := by
      simp only [cell_text, if_pos (And.intro hgt hcol), pySliceTo, if_pos hnn]
      rfl
    refine ⟨hres, ?_, ?_⟩
    · rw [hres, List.length_take]
      omega
    · exact ⟨text.drop (cellMaxChars width), by rw [hres, List.take_append_drop]⟩

/-- C6 witness: instantiated at the Acknowledgment description column
(`3.2 * inch` wide, budget `⌊230.4 / 5.5⌋ = 41` characters) with a
50-character text in column 2. -/
theorem c6_cell_truncation_spec_witness :
    (0 : ℚ) ≤ 3.2 * inch ∧
    ((2 = 0 → cell_text (List.replicate 50 'x') (3.2 * inch) 2 = List.replicate 50 'x') ∧
     ((List.replicate 50 'x').length ≤ cellMaxChars (3.2 * inch) →
       cell_text (List.replicate 50 'x') (3.2 * inch) 2 = List.replicate 50 'x') ∧
     (2 ≠ 0 → cellMaxChars (3.2 * inch) < (List.replicate 50 'x').length →
       cell_text (List.replicate 50 'x') (3.2 * inch) 2
         = (List.replicate 50 'x').take (cellMaxChars (3.2 * inch)) ∧
       (cell_text (List.replicate 50 'x') (3.2 * inch) 2).length = cellMaxChars (3.2 * inch) ∧
       ∃ r, cell_text (List.replicate 50 'x') (3.2 * inch) 2 ++ r = List.replicate 50 'x')) :=
  ⟨by norm_num [inch],
   c6_cell_truncation_spec (List.replicate 50 'x') (3.2 * inch) 2 (by norm_num [inch])⟩

lemma foldl_pyReplace_as_map (cs : List Char) :
    ∀ s : PyStr, cs.foldl (fun acc ch => pyReplace acc ch '_') s
      = s.map fun x => cs.foldl (fun a c => if a = c then '_' else a) x := by
  induction cs with
  | nil => intro s; simp
  | cons c cs ih =>
    intro s
    rw [List.foldl_cons, ih (pyReplace s c '_')]
    simp only [pyReplace, List.map_map]
    rfl

lemma foldl_chain_eq_ite :
    ∀ cs : List Char, '_' ∉ cs → ∀ x : Char,
      cs.foldl (fun a c => if a = c then '_' else a) x
        = if x ∈ cs then '_' else x := by
  intro cs
  induction cs with
  | nil => intro _ x; simp
  | cons c cs ih =>
    intro hni x
    have hni' : '_' ∉ cs := fun h => hni (List.mem_cons_of_mem c h)
    by_cases hx : x = c
    · subst hx
      have h2 : cs.foldl (fun a c => if a = c then '_' else a) '_' = '_' := by
        rw [ih hni' '_']
        by_cases h : '_' ∈ cs <;> simp [h]
      simp [List.foldl_cons, h2]
    · simp [List.foldl_cons, hx, ih hni' x]

lemma sanitizeFold_eq_specSanitize (s : PyStr) : sanitizeFold s = specSanitize s := by
  rw [sanitizeFold, foldl_pyReplace_as_map, specSanitize]
  apply List.map_congr_left
  intro x _
  exact foldl_chain_eq_ite invalidChars (by decide) x

/-- C8: for already-trimmed field values (spec §6 guarantees the GUI passes
trimmed strings), each generator's filename equals the spec's exact rule —
defaulting empty fields to `"Unknown"`, truncating the first item description
to 30 characters (else `"Asset"`), replacing every forbidden character
`<>:"/\|?*` by `'_'` in every interpolated field, and assembling the fixed
template. -/
theorem c8_filename_rule (d : AckForm) (t : TransferForm)
    (h1 : pyStrip d.emp_id = d.emp_id)
    (h2 : pyStrip d.custodian_name = d.custodian_name)
    (h3 : ∀ item ∈ d.items, pyStrip item.description = item.description)
    (h4 : pyStrip t.from_emp_id = t.from_emp_id)
    (h5 : pyStrip t.from_name = t.from_name)
    (h6 : pyStrip t.to_emp_id = t.to_emp_id)
    (h7 : pyStrip t.to_name = t.to_name) :
    ackGenerateFilename d = ackSpecFilename d ∧
    transferGenerateFilename t = transferSpecFilename t := by
  constructor
  · have hasset :
        (match d.items with
          | item :: _ =>
            if item.description ≠ [] then
              let a := pyStrip item.description
              if a.length > 30 then a.take 30 else a
            else "Asset".data
          | [] => "Asset".data)
        = (match d.items with
          | item :: _ => (orDefault item.description "Asset".data).take 30
          | [] => "Asset".data) := by
      cases hd : d.items with
      | nil => rfl
      | cons item rest =>
        have hstr : pyStrip item.description = item.description :=
          h3 item (hd ▸ List.mem_cons_self item rest)
        by_cases hdesc : item.description = []
        · simp [hdesc, orDefault]
        · simp only [hdesc, orDefault, if_neg hdesc, ne_eq, not_false_eq_true, if_true, hstr]
          by_cases hlong : item.description.length > 30
          · simp [hlong]
          · simp only [hlong, if_false]
            exact (List.take_of_length_le (le_of_not_lt hlong)).symm
    simp only [ackGenerateFilename, ackSpecFilename, h1, h2, hasset,
      sanitizeFold_eq_specSanitize]
  · simp only [transferGenerateFilename, transferSpecFilename, h4, h5, h6, h7,
      sanitizeFold_eq_specSanitize]

/-- C8 witness: the trimmed-input hypotheses hold for the sample submissions
and the two filename equalities follow by applying `c8_filename_rule`. -/
theorem c8_filename_rule_witness :
    (pyStrip sampleAck.emp_id = sampleAck.emp_id ∧
     pyStrip sampleAck.custodian_name = sampleAck.custodian_name ∧
     (∀ item ∈ sampleAck.items, pyStrip item.description = item.description) ∧
     pyStrip sampleTransfer.from_emp_id = sampleTransfer.from_emp_id ∧
     pyStrip sampleTransfer.from_name = sampleTransfer.from_name ∧
     pyStrip sampleTransfer.to_emp_id = sampleTransfer.to_emp_id ∧
     pyStrip sampleTransfer.to_name = sampleTransfer.to_name) ∧
    (ackGenerateFilename sampleAck = ackSpecFilename sampleAck ∧
     transferGenerateFilename sampleTransfer = transferSpecFilename sampleTransfer) :=
  ⟨⟨by decide, by decide, by decide, by decide, by decide, by decide, by decide⟩,
   c8_filename_rule sampleAck sampleTransfer (by decide) (by decide) (by decide)
     (by decide) (by decide) (by decide) (by decide)⟩

lemma digitVal_digitChar (m : ℕ) (hm : m < 10) : digitVal (Nat.digitChar m) = m := by
  have h : ∀ k : Fin 10, digitVal (Nat.digitChar k.val) = k.val := by decide
  exact h ⟨m, hm⟩

lemma natStrAux_foldl (fuel : ℕ) :
    ∀ n a, n ≤ fuel →
      (natStrAux fuel n).foldl (fun x c => 10 * x + digitVal c) a
        = a * 10 ^ (natStrAux fuel n).length + n := by
  induction fuel with
  | zero =>
    intro n a hn
    have : n = 0 := Nat.le_zero.mp hn
    simp [natStrAux, this]
  | succ fuel ih =>
    intro n a hn
    by_cases h0 : n = 0
    · simp [natStrAux, h0]
    · have hdiv : n / 10 ≤ fuel := by
        have h1 : n / 10 < n := Nat.div_lt_self (Nat.pos_of_ne_zero h0) (by norm_num)
        omega
      have hmod : n % 10 < 10 := Nat.mod_lt _ (by norm_num)
      simp only [natStrAux, if_neg h0, List.foldl_append, List.foldl_cons, List.foldl_nil,
        List.length_append, List.length_cons, List.length_nil, ih (n / 10) a hdiv,
        digitVal_digitChar _ hmod]
      rw [pow_succ]
      have := Nat.div_add_mod n 10
      ring_nf
      omega

lemma toNatOf_natStr (n : ℕ) : toNatOf (natStr n) = n := by
  by_cases h0 : n = 0
  · simp [natStr, h0, toNatOf, digitVal]
  · have := natStrAux_foldl (n + 1) n 0 (by omega)
    simpa [natStr, h0, toNatOf] using this

lemma natStr_injective : Function.Injective natStr := by
  intro a b h
  have := congrArg toNatOf h
  rwa [toNatOf_natStr, toNatOf_natStr] at this

lemma cand_injective (dir base : PyStr) : Function.Injective (cand dir base) := by
  intro a b h
  apply natStr_injective
  have h1 : candName base a = candName base b := by
    have := List.append_cancel_left (h : dir ++ '/' :: candName base a
      = dir ++ '/' :: candName base b)
    exact (List.cons.inj this).2
  have h2 : natStr a ++ ").pdf".data = natStr b ++ ").pdf".data := by
    have := List.append_cancel_left
      ((List.append_assoc _ _ _) ▸ (List.append_assoc _ _ _) ▸ h1 :
        (base ++ " (#".data) ++ (natStr a ++ ").pdf".data)
          = (base ++ " (#".data) ++ (natStr b ++ ").pdf".data))
    exact this
  exact List.append_cancel_right h2

lemma uniqueLoopAux_spec (fs : List PyStr) (dir base : PyStr) :
    ∀ (fuel k : ℕ), (∃ j, j < fuel ∧ cand dir base (k + j) ∉ fs) →
      ∃ j, j < fuel ∧ cand dir base (k + j) ∉ fs ∧
        (∀ i, i < j → cand dir base (k + i) ∈ fs) ∧
        uniqueLoopAux fs dir base fuel k = some (cand dir base (k + j)) := by
  intro fuel
  induction fuel with
  | zero =>
    intro k h
    rcases h with ⟨j, hj, _⟩
    omega
  | succ fuel ih =>
    intro k h
    by_cases hk : cand dir base k ∈ fs
    · rcases h with ⟨j, hj, hfree⟩
      have hj0 : j ≠ 0 := by
        intro h0
        rw [h0, Nat.add_zero] at hfree
        exact hfree hk
      have hrec : ∃ j', j' < fuel ∧ cand dir base (k + 1 + j') ∉ fs := by
        refine ⟨j - 1, by omega, ?_⟩
        have : k + 1 + (j - 1) = k + j := by omega
        rwa [this]
      rcases ih (k + 1) hrec with ⟨j', hj', hfree', hused', heq'⟩
      refine ⟨j' + 1, by omega, ?_, ?_, ?_⟩
      · have : k + (j' + 1) = k + 1 + j' := by omega
        rwa [this]
      · intro i hi
        rcases Nat.eq_zero_or_pos i with hi0 | hip
        · rwa [hi0, Nat.add_zero]
        · have h1 : i - 1 < j' := by omega
          have h2 : k + i = k + 1 + (i - 1) := by omega
          rw [h2]
          exact hused' (i - 1) h1
      · have hstep : uniqueLoopAux fs dir base (fuel + 1) k
            = uniqueLoopAux fs dir base fuel (k + 1) := by
          simp only [uniqueLoopAux]
          rw [if_pos (by exact hk)]
        rw [hstep, heq']
        congr 1
        congr 1
        omega
    · refine ⟨0, by omega, by simpa using hk, by omega, ?_⟩
      simp only [uniqueLoopAux, Nat.add_zero]
      rw [if_neg (by exact hk)]
      rfl

lemma exists_free_cand (fs : List PyStr) (dir base : PyStr) (k : ℕ) :
    ∃ j, j < fs.length + 1 ∧ cand dir base (k + j) ∉ fs := by
  by_contra hall
  push_neg at hall
  have hsub : ∀ j ∈ List.range (fs.length + 1), cand dir base (k + j) ∈ fs := by
    intro j hj
    exact hall j (List.mem_range.mp hj)
  have hinj : Function.Injective fun j => cand dir base (k + j) := by
    intro a b h
    have := cand_injective dir base h
    omega
  have hnodup : ((List.range (fs.length + 1)).map fun j => cand dir base (k + j)).Nodup :=
    (List.nodup_range _).map hinj
  have hlen : ((List.range (fs.length + 1)).map fun j => cand dir base (k + j)).length
      = fs.length + 1 := by
    simp
  have hsub2 : ((List.range (fs.length + 1)).map fun j => cand dir base (k + j)).toFinset
      ⊆ fs.toFinset := by
    intro x hx
    rcases List.mem_map.mp (List.mem_toFinset.mp hx) with ⟨j, hj, rfl⟩
    exact List.mem_toFinset.mpr (hsub j hj)
  have hcard1 : ((List.range (fs.length + 1)).map fun j => cand dir base (k + j)).toFinset.card
      = fs.length + 1 := by
    rw [List.toFinset_card_of_nodup hnodup, hlen]
  have hcard2 : fs.toFinset.card ≤ fs.length := fs.toFinset_card_le
  have := Finset.card_le_card hsub2
  omega

/-- When the initially resolved path collides, the loop of
`_get_unique_filepath` returns the candidate for the least free counter
`k ≥ 2`, formed from the filename with its last four characters removed. -/
lemma get_unique_filepath_collision (fs : List PyStr) (dir filename : PyStr)
    (h : osJoin dir filename ∈ fs) :
    ∃ k, 2 ≤ k ∧
      cand dir (filename.take (filename.length - 4)) k ∉ fs ∧
      (∀ i, 2 ≤ i → i < k → cand dir (filename.take (filename.length - 4)) i ∈ fs) ∧
      get_unique_filepath fs dir filename
        = some (cand dir (filename.take (filename.length - 4)) k) := by
  rcases uniqueLoopAux_spec fs dir (filename.take (filename.length - 4)) (fs.length + 1) 2
      (exists_free_cand fs dir _ 2) with ⟨j, hj, hfree, hused, heq⟩
  refine ⟨2 + j, by omega, hfree, ?_, ?_⟩
  · intro i h2 hik
    have : i = 2 + (i - 2) := by omega
    rw [this]
    exact hused (i - 2) (by omega)
  · simp only [get_unique_filepath, if_pos h]
    exact heq

/-- `get_unique_filepath` never fails (the fuel is sufficient). -/
lemma get_unique_filepath_isSome (fs : List PyStr) (dir filename : PyStr) :
    ∃ p, get_unique_filepath fs dir filename = some p := by
  by_cases h : osJoin dir filename ∈ fs
  · rcases get_unique_filepath_collision fs dir filename h with ⟨k, _, _, _, heq⟩
    exact ⟨_, heq⟩
  · exact ⟨osJoin dir filename, by simp [get_unique_filepath, h]⟩

lemma countP_isDataRow_eq_length_filterMap (tr : List Ev) :
    tr.countP isDataRow = (tr.filterMap dataRowIdx).length := by
  induction tr with
  | nil => simp
  | cons e rest ih =>
    cases e <;> simp [List.countP_cons, isDataRow, dataRowIdx, ih]

lemma ack_numRows_eq_max (items : List Item) : Ack.numRows items = max 1 items.length := by
  rw [Ack.numRows]
  split <;> omega

lemma transfer_numRows_eq_max (assets : List Asset) :
    Transfer.numRows assets = max 1 assets.length := by
  rw [Transfer.numRows]
  split <;> omega

lemma ack_rowsTrace_filterMap : ∀ (l : List ℕ) (y : ℤ),
    (Ack.rowsTrace y l).filterMap dataRowIdx = l := by
  intro l
  induction l with
  | nil => intro y; simp [Ack.rowsTrace]
  | cons j rest ih =>
    intro y
    by_cases hbr : y - Ack.row_height < Ack.bottom_margin + inches 400 <;>
      simp [Ack.rowsTrace, hbr, dataRowIdx, ih]

lemma transfer_rowsTrace_filterMap : ∀ (l : List ℕ) (y : ℤ),
    (Transfer.rowsTrace y l).filterMap dataRowIdx = l := by
  intro l
  induction l with
  | nil => intro y; simp [Transfer.rowsTrace]
  | cons j rest ih =>
    intro y
    simp [Transfer.rowsTrace, dataRowIdx, ih]

lemma ack_freshRow_safe :
    Ack.bottom_margin + inches 400 ≤ Ack.freshRowY - Ack.row_height := by
  decide

lemma ack_rowsTrace_dataRow_safe : ∀ (l : List ℕ) (y : ℤ) (i : ℕ) (yr : ℤ),
    Ev.dataRow i yr ∈ Ack.rowsTrace y l →
    Ack.bottom_margin + inches 400 ≤ yr - Ack.row_height := by
  intro l
  induction l with
  | nil => intro y i yr h; simp [Ack.rowsTrace] at h
  | cons j rest ih =>
    intro y i yr h
    by_cases hbr : y - Ack.row_height < Ack.bottom_margin + inches 400
    · simp only [Ack.rowsTrace, if_pos hbr, List.mem_cons] at h
      rcases h with h | h | h | h | h
      · exact absurd h (by simp)
      · exact absurd h (by simp)
      · exact absurd h (by simp)
      · have : yr = Ack.freshRowY := (Ev.dataRow.inj h).2
        rw [this]
        exact ack_freshRow_safe
      · exact ih _ i yr h
    · simp only [Ack.rowsTrace, if_neg hbr, List.mem_cons] at h
      rcases h with h | h | h
      · exact absurd h (by simp)
      · have : yr = y := (Ev.dataRow.inj h).2
        rw [this]
        exact le_of_not_lt hbr
      · exact ih _ i yr h

lemma ack_rowsTrace_pbThenHeader : ∀ (l : List ℕ) (y : ℤ),
    pbThenHeader (Ack.rowsTrace y l) = true := by
  intro l
  induction l with
  | nil => intro y; simp [Ack.rowsTrace, pbThenHeader]
  | cons j rest ih =>
    intro y
    by_cases hbr : y - Ack.row_height < Ack.bottom_margin + inches 400 <;>
      simp [Ack.rowsTrace, hbr, pbThenHeader, ih]

lemma ack_rowsTrace_checkBeforeRow : ∀ (l : List ℕ) (y : ℤ) (b : Bool),
    checkBeforeRow b (Ack.rowsTrace y l) = true := by
  intro l
  induction l with
  | nil => intro y b; simp [Ack.rowsTrace, checkBeforeRow]
  | cons j rest ih =>
    intro y b
    by_cases hbr : y - Ack.row_height < Ack.bottom_margin + inches 400 <;>
      simp [Ack.rowsTrace, hbr, checkBeforeRow, ih]

lemma transfer_rowsTrace_no_pageBreak : ∀ (l : List ℕ) (y : ℤ),
    Ev.pageBreak ∉ Transfer.rowsTrace y l ∧ Ev.rowCheck ∉ Transfer.rowsTrace y l := by
  intro l
  induction l with
  | nil => intro y; simp [Transfer.rowsTrace]
  | cons j rest ih =>
    intro y
    have := ih (y - Transfer.row_height)
    simp [Transfer.rowsTrace, this.1, this.2]

lemma ack_rowsTrace_filter_check : ∀ (l : List ℕ) (y : ℤ),
    (Ack.rowsTrace y l).filter isBlockLevelCheck = [] := by
  intro l
  induction l with
  | nil => intro y; simp [Ack.rowsTrace]
  | cons j rest ih =>
    intro y
    by_cases hbr : y - Ack.row_height < Ack.bottom_margin + inches 400 <;>
      simp [Ack.rowsTrace, hbr, isBlockLevelCheck, ih]

lemma transfer_rowsTrace_filter_check : ∀ (l : List ℕ) (y : ℤ),
    (Transfer.rowsTrace y l).filter isBlockLevelCheck = [] := by
  intro l
  induction l with
  | nil => intro y; simp [Transfer.rowsTrace]
  | cons j rest ih =>
    intro y
    simp [Transfer.rowsTrace, isBlockLevelCheck, ih]

/-- C5: in both tables the number of drawn data rows is `max(1, len(rows))`
and the rows are drawn exactly once each, in input order (row indices
`0, …, n-1`); on an empty row list one empty row is drawn (the table drawer
itself does not reject empty input: it is a total function). -/
theorem c5_table_row_count :
    (∀ (y : ℤ) (items : List Item),
      (Ack.drawItemsTableTrace y items).filterMap dataRowIdx
          = List.range (max 1 items.length) ∧
      (Ack.drawItemsTableTrace y items).countP isDataRow = max 1 items.length) ∧
    (∀ (y : ℤ) (assets : List Asset),
      (Transfer.drawAssetsTableTrace y assets).filterMap dataRowIdx
          = List.range (max 1 assets.length) ∧
      (Transfer.drawAssetsTableTrace y assets).countP isDataRow = max 1 assets.length) := by
  constructor
  · intro y items
    have h1 : (Ack.drawItemsTableTrace y items).filterMap dataRowIdx
        = List.range (max 1 items.length) := by
      simp [Ack.drawItemsTableTrace, dataRowIdx, ack_rowsTrace_filterMap,
        ack_numRows_eq_max]
    refine ⟨h1, ?_⟩
    rw [countP_isDataRow_eq_length_filterMap, h1, List.length_range]
  · intro y assets
    have h1 : (Transfer.drawAssetsTableTrace y assets).filterMap dataRowIdx
        = List.range (max 1 assets.length) := by
      simp [Transfer.drawAssetsTableTrace, dataRowIdx, transfer_rowsTrace_filterMap,
        transfer_numRows_eq_max]
    refine ⟨h1, ?_⟩
    rw [countP_isDataRow_eq_length_filterMap, h1, List.length_range]

/-- C4: in the Acknowledgment table every data row is drawn at a cursor `yr`
with `yr - row_height ≥ bottom_margin + 4*inch` (the per-row check guarantees
the whole row fits above the bottom of the page, so no data row straddles a
page boundary); every in-table page break is immediately followed by a redrawn
header row; every data row is preceded by its own page-break check; and the
Transfer table performs no per-row check and never breaks a page mid-table. -/
theorem c4_per_row_pagination :
    (∀ (y : ℤ) (items : List Item) (i : ℕ) (yr : ℤ),
      Ev.dataRow i yr ∈ Ack.drawItemsTableTrace y items →
      Ack.bottom_margin + inches 400 ≤ yr - Ack.row_height) ∧
    (∀ (y : ℤ) (items : List Item),
      pbThenHeader (Ack.drawItemsTableTrace y items) = true) ∧
    (∀ (y : ℤ) (items : List Item),
      checkBeforeRow false (Ack.drawItemsTableTrace y items) = true) ∧
    (∀ (y : ℤ) (assets : List Asset),
      Ev.pageBreak ∉ Transfer.drawAssetsTableTrace y assets ∧
      Ev.rowCheck ∉ Transfer.drawAssetsTableTrace y assets) := by
  refine ⟨?_, ?_, ?_, ?_⟩
  · intro y items i yr h
    rcases List.mem_cons.mp h with h | h
    · exact absurd h (by simp)
    · exact ack_rowsTrace_dataRow_safe _ _ i yr h
  · intro y items
    simp [Ack.drawItemsTableTrace, pbThenHeader, ack_rowsTrace_pbThenHeader]
  · intro y items
    simp [Ack.drawItemsTableTrace, checkBeforeRow, ack_rowsTrace_checkBeforeRow]
  · intro y assets
    have := transfer_rowsTrace_no_pageBreak (List.range (Transfer.numRows assets))
      (y - Transfer.header_height)
    simp [Transfer.drawAssetsTableTrace, this.1, this.2]

/-- C4 witness: in a one-row table started at cursor `2222500` (700 points),
row `0` is drawn at cursor `2131060` and the theorem's bound holds there. -/
theorem c4_per_row_pagination_witness :
    Ev.dataRow 0 (2131060 : ℤ) ∈ Ack.drawItemsTableTrace 2222500 [blankItem] ∧
    Ack.bottom_margin + inches 400 ≤ (2131060 : ℤ) - Ack.row_height :=
  ⟨by decide, c4_per_row_pagination.1 2222500 [blankItem] 0 2131060 (by decide)⟩

/-- C3 counterexample: at the concrete input (zero-width measure, empty item
list) the Acknowledgment render performs two block-level page-break checks
after the items table — the coarse 4.5-inch one before the custodian block
and the `y < 1.3*inch` one inside `_draw_signature` — not exactly one. -/
theorem c3_counterexample :
    (Ack.drawFormTrace (fun _ _ _ => 0) []).countP isBlockLevelCheck = 2 ∧
    ¬ (Ack.drawFormTrace (fun _ _ _ => 0) []).countP isBlockLevelCheck = 1 := by
  constructor <;> decide

/-- C3 (amended): during one render the Acknowledgment form applies exactly
two block-level page-break checks, both after the items table and in this
order: the coarse `_check_page_break` with the fixed 4.5-inch budget before
the custodian/location/declaration/device block, and the `y < 1.3*inch` check
of `_draw_signature` before the signature block; the Transfer form applies
exactly one, the `y < 1.5*inch` check before its signature block; and neither
table's row loop performs any block-level check. -/
theorem c3_block_level_checks :
    (∀ (sw : String → ℕ → PyStr → ℤ) (items : List Item),
      (Ack.drawFormTrace sw items).filter isBlockLevelCheck
        = [Ev.blockCheck (inches 450), Ev.sigCheck (inches 130)]) ∧
    (∀ assets : List Asset,
      (Transfer.drawFormTrace assets).filter isBlockLevelCheck
        = [Ev.sigCheck (inches 150)]) ∧
    (∀ (y : ℤ) (items : List Item),
      (Ack.drawItemsTableTrace y items).filter isBlockLevelCheck = []) ∧
    (∀ (y : ℤ) (assets : List Asset),
      (Transfer.drawAssetsTableTrace y assets).filter isBlockLevelCheck = []) := by
  have hAckTable : ∀ (y : ℤ) (items : List Item),
      (Ack.drawItemsTableTrace y items).filter isBlockLevelCheck = [] := by
    intro y items
    simp [Ack.drawItemsTableTrace, isBlockLevelCheck, ack_rowsTrace_filter_check]
  have hTrTable : ∀ (y : ℤ) (assets : List Asset),
      (Transfer.drawAssetsTableTrace y assets).filter isBlockLevelCheck = [] := by
    intro y assets
    simp [Transfer.drawAssetsTableTrace, isBlockLevelCheck, transfer_rowsTrace_filter_check]
  refine ⟨?_, ?_, hAckTable, hTrTable⟩
  · intro sw items
    rw [Ack.drawFormTrace]
    simp only [List.filter_append, hAckTable]
    by_cases h1 : Ack.drawItemsTableY (Ack.drawDateY (Ack.drawHeaderY (pageH
        - Ack.margin))) items - inches 450 < Ack.bottom_margin <;>
      by_cases h2 : Ack.drawDeviceY sw (Ack.drawDeclarationY sw (Ack.drawLocationY
          (Ack.drawCustodianY (Ack.check_page_break (Ack.drawItemsTableY (Ack.drawDateY
            (Ack.drawHeaderY (pageH - Ack.margin))) items) (inches 450)))))
          < inches 130 <;>
      simp [h1, h2, isBlockLevelCheck]
  · intro assets
    rw [Transfer.drawFormTrace]
    simp only [List.filter_append, hTrTable]
    by_cases h2 : Transfer.drawDeclarationY (Transfer.drawPartyY (Transfer.drawAssetsTableY
        (Transfer.drawPartyY (Transfer.drawHeaderY (pageH - Transfer.margin)))
        assets)) < inches 150 <;>
      simp [h2, isBlockLevelCheck]

lemma countP_isDataRow_pageBreak_if (c : Prop) [Decidable c] :
    (if c then [Ev.pageBreak] else []).countP isDataRow = 0 := by
  split <;> simp [isDataRow, dataRowIdx]

lemma ack_table_countP (y : ℤ) (items : List Item) :
    (Ack.drawItemsTableTrace y items).countP isDataRow = max 1 items.length := by
  have h1 : (Ack.drawItemsTableTrace y items).filterMap dataRowIdx
      = List.range (max 1 items.length) := by
    simp [Ack.drawItemsTableTrace, dataRowIdx, ack_rowsTrace_filterMap, ack_numRows_eq_max]
  rw [countP_isDataRow_eq_length_filterMap, h1, List.length_range]

lemma transfer_table_countP (y : ℤ) (assets : List Asset) :
    (Transfer.drawAssetsTableTrace y assets).countP isDataRow = max 1 assets.length := by
  have h1 : (Transfer.drawAssetsTableTrace y assets).filterMap dataRowIdx
      = List.range (max 1 assets.length) := by
    simp [Transfer.drawAssetsTableTrace, dataRowIdx, transfer_rowsTrace_filterMap,
      transfer_numRows_eq_max]
  rw [countP_isDataRow_eq_length_filterMap, h1, List.length_range]

lemma ack_drawFormTrace_countP (sw : String → ℕ → PyStr → ℤ) (items : List Item) :
    (Ack.drawFormTrace sw items).countP isDataRow = max 1 items.length := by
  rw [Ack.drawFormTrace]
  simp only [List.countP_append, List.countP_cons, ack_table_countP,
    countP_isDataRow_pageBreak_if]
  simp [isDataRow, dataRowIdx]

lemma transfer_drawFormTrace_countP (assets : List Asset) :
    (Transfer.drawFormTrace assets).countP isDataRow = max 1 assets.length := by
  rw [Transfer.drawFormTrace]
  simp only [List.countP_append, List.countP_cons, transfer_table_countP,
    countP_isDataRow_pageBreak_if]
  simp [isDataRow, dataRowIdx]

/-- C2 counterexample: for the concrete empty-row submissions, `generate()`
does not fail — it resolves an output path and writes the file (`isSome`),
and its `_draw_form` call draws a table with one (empty) data row, so drawing
does occur.  No `ValidationError` path exists in either generator. -/
theorem c2_counterexample :
    (Ack.generate [] "output".data (fun _ _ _ => 0) emptyAck none).isSome = true ∧
    ((Ack.generate [] "output".data (fun _ _ _ => 0) emptyAck none).map
        fun pr => pr.2.countP isDataRow) = some 1 ∧
    (Transfer.generate [] "output".data emptyTransfer none).isSome = true ∧
    ((Transfer.generate [] "output".data emptyTransfer none).map
        fun pr => pr.2.countP isDataRow) = some 1 := by
  refine ⟨by decide, by decide, by decide, by decide⟩

/-- C2 (amended): the empty-row rejection lives in the GUI layer, not in
`generate()`: each form's `_generate_pdf` handler returns with a warning —
never invoking the generator — when the collected row list is empty; the
generators themselves perform no row validation, and for a submission with an
empty row list `generate()` resolves an output path, renders the form with
exactly one (empty) table data row, and writes the file. -/
theorem c2_empty_rows_guard :
    (∀ (fs : List PyStr) (dir : PyStr) (sw : String → ℕ → PyStr → ℤ)
        (rows : List Item) (base : AckForm),
      guiGetItems rows = [] → guiAckGeneratePdf fs dir sw rows base = none) ∧
    (∀ (fs : List PyStr) (dir : PyStr) (rows : List Asset) (base : TransferForm),
      guiGetAssets rows = [] → guiTransferGeneratePdf fs dir rows base = none) ∧
    (∀ (fs : List PyStr) (dir : PyStr) (sw : String → ℕ → PyStr → ℤ) (d : AckForm),
      d.items = [] →
      ∃ p, Ack.generate fs dir sw d none = some (p, Ack.drawFormTrace sw d.items) ∧
        (Ack.drawFormTrace sw d.items).countP isDataRow = 1) ∧
    (∀ (fs : List PyStr) (dir : PyStr) (t : TransferForm),
      t.assets = [] →
      ∃ p, Transfer.generate fs dir t none = some (p, Transfer.drawFormTrace t.assets) ∧
        (Transfer.drawFormTrace t.assets).countP isDataRow = 1) := by
  refine ⟨?_, ?_, ?_, ?_⟩
  · intro fs dir sw rows base h
    simp [guiAckGeneratePdf, h]
  · intro fs dir rows base h
    simp [guiTransferGeneratePdf, h]
  · intro fs dir sw d h
    rcases get_unique_filepath_isSome fs dir (ackGenerateFilename d) with ⟨p, hp⟩
    refine ⟨p, ?_, ?_⟩
    · simp [Ack.generate, Ack.generatePathWith, hp]
    · rw [ack_drawFormTrace_countP, h]
      rfl
  · intro fs dir t h
    rcases get_unique_filepath_isSome fs dir (transferGenerateFilename t) with ⟨p, hp⟩
    refine ⟨p, ?_, ?_⟩
    · simp [Transfer.generate, Transfer.generatePathWith, hp]
    · rw [transfer_drawFormTrace_countP, h]
      rfl

/-- C2 amended-theorem witness: instantiated at empty widget rows and the
concrete empty submissions. -/
theorem c2_empty_rows_guard_witness :
    (guiGetItems [] = [] ∧
      guiAckGeneratePdf [] "output".data (fun _ _ _ => 0) [] emptyAck = none) ∧
    (guiGetAssets [] = [] ∧
      guiTransferGeneratePdf [] "output".data [] emptyTransfer = none) ∧
    (emptyAck.items = [] ∧
      ∃ p, Ack.generate [] "output".data (fun _ _ _ => 0) emptyAck none
          = some (p, Ack.drawFormTrace (fun _ _ _ => 0) emptyAck.items) ∧
        (Ack.drawFormTrace (fun _ _ _ => 0) emptyAck.items).countP isDataRow = 1) ∧
    (emptyTransfer.assets = [] ∧
      ∃ p, Transfer.generate [] "output".data emptyTransfer none
          = some (p, Transfer.drawFormTrace emptyTransfer.assets) ∧
        (Transfer.drawFormTrace emptyTransfer.assets).countP isDataRow = 1) :=
  ⟨⟨rfl, c2_empty_rows_guard.1 [] "output".data (fun _ _ _ => 0) [] emptyAck rfl⟩,
   ⟨rfl, c2_empty_rows_guard.2.1 [] "output".data [] emptyTransfer rfl⟩,
   ⟨rfl, c2_empty_rows_guard.2.2.1 [] "output".data (fun _ _ _ => 0) emptyAck rfl⟩,
   ⟨rfl, c2_empty_rows_guard.2.2.2 [] "output".data emptyTransfer rfl⟩⟩

lemma take_drop_suffix (stem suf : PyStr) :
    (stem ++ suf).take ((stem ++ suf).length - suf.length) = stem := by
  have h1 : (stem ++ suf).length - suf.length = stem.length := by
    simp
  rw [h1]
  simp [List.take_left]

lemma osJoin_inj_right (dir a b : PyStr) (h : osJoin dir a = osJoin dir b) : a = b := by
  have := List.append_cancel_left (h : dir ++ '/' :: a = dir ++ '/' :: b)
  exact (List.cons.inj this).2

/-- After one successful `generate`, the same filename collides and resolves
to `stem (#2).pdf` on the next call, provided that name was itself unused. -/
lemma get_unique_filepath_twice (fs : List PyStr) (dir stem : PyStr)
    (h1 : osJoin dir (stem ++ ".pdf".data) ∉ fs)
    (h2 : osJoin dir (stem ++ " (#2).pdf".data) ∉ fs) :
    get_unique_filepath fs dir (stem ++ ".pdf".data)
      = some (osJoin dir (stem ++ ".pdf".data)) ∧
    get_unique_filepath (osJoin dir (stem ++ ".pdf".data) :: fs) dir (stem ++ ".pdf".data)
      = some (osJoin dir (stem ++ " (#2).pdf".data)) ∧
    osJoin dir (stem ++ ".pdf".data) ≠ osJoin dir (stem ++ " (#2).pdf".data) := by
  have hsuffix : stem ++ " (#".data ++ natStr 2 ++ ").pdf".data
      = stem ++ " (#2).pdf".data := by
    rw [List.append_assoc stem, List.append_assoc stem]
    rfl
  have hneq : osJoin dir (stem ++ ".pdf".data) ≠ osJoin dir (stem ++ " (#2).pdf".data) := by
    intro h
    have h3 := osJoin_inj_right dir _ _ h
    have h4 := List.append_cancel_left (h3 : stem ++ ".pdf".data
      = stem ++ " (#2).pdf".data)
    exact absurd h4 (by decide)
  refine ⟨?_, ?_, hneq⟩
  · simp [get_unique_filepath, h1]
  · have hmem : osJoin dir (stem ++ ".pdf".data)
        ∈ osJoin dir (stem ++ ".pdf".data) :: fs := List.mem_cons_self _ _
    have hbase : (stem ++ ".pdf".data).take ((stem ++ ".pdf".data).length - 4) = stem := by
      have : (4 : ℕ) = (".pdf".data : PyStr).length := by decide
      rw [this]
      exact take_drop_suffix stem ".pdf".data
    have hcand2 : osJoin dir (stem ++ " (#".data ++ natStr 2 ++ ").pdf".data)
        ∉ osJoin dir (stem ++ ".pdf".data) :: fs := by
      rw [hsuffix]
      intro hmem2
      rcases List.mem_cons.mp hmem2 with heq | hin
      · exact hneq heq.symm
      · exact h2 hin
    simp only [get_unique_filepath, if_pos hmem, hbase]
    have hfuel : (osJoin dir (stem ++ ".pdf".data) :: fs).length + 1 = fs.length + 2 := by
      simp
    rw [hfuel]
    simp only [uniqueLoopAux, if_neg hcand2]
    rw [hsuffix]

/-- C9: collision resolution.  First, whenever the initially resolved
`.pdf` path already exists, `_get_unique_filepath` strips the `.pdf` suffix
and returns `stem (#k).pdf` for the least counter `k ≥ 2` whose path is
unused (every smaller counter's path exists).  Second, calling `generate()`
twice with identical data, starting with neither the resolved name nor its
`(#2)` variant present, writes two distinct files: the first at the resolved
name, the second equal to the first with `" (#2)"` inserted before `.pdf` —
for both generators. -/
theorem c9_collision_resolution :
    (∀ (fs : List PyStr) (dir stem : PyStr),
      osJoin dir (stem ++ ".pdf".data) ∈ fs →
      ∃ k, 2 ≤ k ∧
        get_unique_filepath fs dir (stem ++ ".pdf".data)
          = some (osJoin dir (stem ++ " (#".data ++ natStr k ++ ").pdf".data)) ∧
        osJoin dir (stem ++ " (#".data ++ natStr k ++ ").pdf".data) ∉ fs ∧
        ∀ i, 2 ≤ i → i < k →
          osJoin dir (stem ++ " (#".data ++ natStr i ++ ").pdf".data) ∈ fs) ∧
    (∀ (fs : List PyStr) (dir : PyStr) (d : AckForm) (stem : PyStr),
      ackGenerateFilename d = stem ++ ".pdf".data →
      osJoin dir (stem ++ ".pdf".data) ∉ fs →
      osJoin dir (stem ++ " (#2).pdf".data) ∉ fs →
      Ack.generatePathWith fs dir d none = some (osJoin dir (stem ++ ".pdf".data)) ∧
      Ack.generatePathWith (osJoin dir (stem ++ ".pdf".data) :: fs) dir d none
        = some (osJoin dir (stem ++ " (#2).pdf".data)) ∧
      osJoin dir (stem ++ ".pdf".data) ≠ osJoin dir (stem ++ " (#2).pdf".data)) ∧
    (∀ (fs : List PyStr) (dir : PyStr) (t : TransferForm) (stem : PyStr),
      transferGenerateFilename t = stem ++ ".pdf".data →
      osJoin dir (stem ++ ".pdf".data) ∉ fs →
      osJoin dir (stem ++ " (#2).pdf".data) ∉ fs →
      Transfer.generatePathWith fs dir t none = some (osJoin dir (stem ++ ".pdf".data)) ∧
      Transfer.generatePathWith (osJoin dir (stem ++ ".pdf".data) :: fs) dir t none
        = some (osJoin dir (stem ++ " (#2).pdf".data)) ∧
      osJoin dir (stem ++ ".pdf".data) ≠ osJoin dir (stem ++ " (#2).pdf".data)) := by
  refine ⟨?_, ?_, ?_⟩
  · intro fs dir stem hmem
    have hbase : (stem ++ ".pdf".data).take ((stem ++ ".pdf".data).length - 4) = stem := by
      have : (4 : ℕ) = (".pdf".data : PyStr).length := by decide
      rw [this]
      exact take_drop_suffix stem ".pdf".data
    rcases get_unique_filepath_collision fs dir (stem ++ ".pdf".data) hmem with
      ⟨k, hk2, hkfree, hkmin, hkeq⟩
    rw [hbase] at hkfree hkmin hkeq
    exact ⟨k, hk2, hkeq, hkfree, hkmin⟩
  · intro fs dir d stem hname h1 h2
    have h := get_unique_filepath_twice fs dir stem h1 h2
    refine ⟨?_, ?_, h.2.2⟩
    · simp only [Ack.generatePathWith, Option.getD_none, hname]
      exact h.1
    · simp only [Ack.generatePathWith, Option.getD_none, hname]
      exact h.2.1
  · intro fs dir t stem hname h1 h2
    have h := get_unique_filepath_twice fs dir stem h1 h2
    refine ⟨?_, ?_, h.2.2⟩
    · simp only [Transfer.generatePathWith, Option.getD_none, hname]
      exact h.1
    · simp only [Transfer.generatePathWith, Option.getD_none, hname]
      exact h.2.1

/-- C9 witness: for the empty submission in an empty output directory, the
first `generate` resolves the plain name and the second resolves the `(#2)`
variant; the general collision branch is exercised on a one-file directory. -/
theorem c9_collision_resolution_witness :
    (osJoin "out".data ("A".data ++ ".pdf".data) ∈ [osJoin "out".data ("A".data ++ ".pdf".data)] ∧
      ∃ k, 2 ≤ k ∧
        get_unique_filepath [osJoin "out".data ("A".data ++ ".pdf".data)] "out".data
            ("A".data ++ ".pdf".data)
          = some (osJoin "out".data ("A".data ++ " (#".data ++ natStr k ++ ").pdf".data)) ∧
        osJoin "out".data ("A".data ++ " (#".data ++ natStr k ++ ").pdf".data)
          ∉ [osJoin "out".data ("A".data ++ ".pdf".data)] ∧
        ∀ i, 2 ≤ i → i < k →
          osJoin "out".data ("A".data ++ " (#".data ++ natStr i ++ ").pdf".data)
            ∈ [osJoin "out".data ("A".data ++ ".pdf".data)]) ∧
    (ackGenerateFilename emptyAck = emptyAckStem ++ ".pdf".data ∧
      osJoin "out".data (emptyAckStem ++ ".pdf".data) ∉ ([] : List PyStr) ∧
      osJoin "out".data (emptyAckStem ++ " (#2).pdf".data) ∉ ([] : List PyStr) ∧
      (Ack.generatePathWith [] "out".data emptyAck none
          = some (osJoin "out".data (emptyAckStem ++ ".pdf".data)) ∧
       Ack.generatePathWith [osJoin "out".data (emptyAckStem ++ ".pdf".data)] "out".data
            emptyAck none
          = some (osJoin "out".data (emptyAckStem ++ " (#2).pdf".data)) ∧
       osJoin "out".data (emptyAckStem ++ ".pdf".data)
          ≠ osJoin "out".data (emptyAckStem ++ " (#2).pdf".data))) :=
  ⟨⟨by decide,
    c9_collision_resolution.1 [osJoin "out".data ("A".data ++ ".pdf".data)] "out".data
      "A".data (by decide)⟩,
   ⟨by decide, by decide, by decide,
    c9_collision_resolution.2.1 [] "out".data emptyAck emptyAckStem
      (by decide) (by decide) (by decide)⟩⟩

/-- C10: in both generators, whenever the initially resolved path exists, the
collision loop forms every candidate from the filename with its last four
characters removed unconditionally — assuming a `.pdf` suffix — and appends
`" (#k).pdf"` for the least free `k ≥ 2`.  In particular, for an explicit
`filename` argument of `generate()` that does not end in `.pdf`, a collision
silently drops the final four characters of the intended name and switches
the extension to `.pdf`. -/
theorem c10_collision_drops_last_four :
    ∀ (fs : List PyStr) (dir filename : PyStr) (d : AckForm) (t : TransferForm),
      osJoin dir filename ∈ fs →
      ∃ k, 2 ≤ k ∧
        osJoin dir (filename.take (filename.length - 4) ++ " (#".data ++ natStr k
          ++ ").pdf".data) ∉ fs ∧
        (∀ i, 2 ≤ i → i < k →
          osJoin dir (filename.take (filename.length - 4) ++ " (#".data ++ natStr i
            ++ ").pdf".data) ∈ fs) ∧
        Ack.generatePathWith fs dir d (some filename)
          = some (osJoin dir (filename.take (filename.length - 4) ++ " (#".data
              ++ natStr k ++ ").pdf".data)) ∧
        Transfer.generatePathWith fs dir t (some filename)
          = some (osJoin dir (filename.take (filename.length - 4) ++ " (#".data
              ++ natStr k ++ ").pdf".data)) := by
  intro fs dir filename d t hmem
  rcases get_unique_filepath_collision fs dir filename hmem with ⟨k, hk2, hkfree, hkmin, hkeq⟩
  refine ⟨k, hk2, hkfree, hkmin, ?_, ?_⟩
  · simp only [Ack.generatePathWith, Option.getD_some]
    exact hkeq
  · simp only [Transfer.generatePathWith, Option.getD_some]
    exact hkeq

/-- C10 witness: the caller-supplied name `report.txt` collides in a
directory already containing it, and the resolver returns
`report (#2).pdf` — the `.txt` extension is destroyed. -/
theorem c10_collision_drops_last_four_witness :
    (osJoin "out".data "report.txt".data ∈ [osJoin "out".data "report.txt".data]) ∧
    (∃ k, 2 ≤ k ∧
      osJoin "out".data ("report.txt".data.take ("report.txt".data.length - 4)
        ++ " (#".data ++ natStr k ++ ").pdf".data) ∉ [osJoin "out".data "report.txt".data] ∧
      (∀ i, 2 ≤ i → i < k →
        osJoin "out".data ("report.txt".data.take ("report.txt".data.length - 4)
          ++ " (#".data ++ natStr i ++ ").pdf".data) ∈ [osJoin "out".data "report.txt".data]) ∧
      Ack.generatePathWith [osJoin "out".data "report.txt".data] "out".data emptyAck
          (some "report.txt".data)
        = some (osJoin "out".data ("report.txt".data.take ("report.txt".data.length - 4)
            ++ " (#".data ++ natStr k ++ ").pdf".data)) ∧
      Transfer.generatePathWith [osJoin "out".data "report.txt".data] "out".data
          emptyTransfer (some "report.txt".data)
        = some (osJoin "out".data ("report.txt".data.take ("report.txt".data.length - 4)
            ++ " (#".data ++ natStr k ++ ").pdf".data))) :=
  ⟨by decide,
   c10_collision_drops_last_four [osJoin "out".data "report.txt".data] "out".data
     "report.txt".data emptyAck emptyTransfer (by decide)⟩

end FormFiller
